import Mathlib

/-!
Shallow embedding of the Flip 7 game engine
(`src/main.py`, `src/game/card.py`, `src/game/deck.py`, `src/game/player.py`,
and the consolidated build `src/dist/fun_game.py`).

Python machine state is modelled explicitly: a `Player` record mirrors the
fields of `Player.__init__`, a `GameState` holds the shared player list (the
aliased `_players` references), the deck list and main.py's `discard_pile`.
Interactive input is modelled as a list of pending responses, each given by
its numeric parse; the blocking re-prompt loops consume responses until a
valid one appears (an overall `none` models the Python loop blocking forever
on an exhausted script).
-/

/-- Card taxonomy of `src/game/card.py`: `NumberCard(value)`,
`ScoreModifierCard(modifier, is_addition)`, and the three `ActionCard`
subclasses `FreezeCard`, `SecondChanceCard`, `FlipThreeCard`.
`NumberCard.__eq__`/`__hash__` compare by value, which the constructor
equality of `Card.number` captures. -/
inductive Card
  | number (v : Int)
  | modifier (v : Int) (isAddition : Bool)
  | freeze
  | secondChance
  | flipThree
deriving DecidableEq, Repr

/-- Embeds `isinstance(card, NumberCard)`. -/
def Card.isNumber : Card → Bool
  | .number _ => true
  | _ => false

/-- Embeds `isinstance(card, ActionCard)`. -/
def Card.isAction : Card → Bool
  | .freeze => true
  | .secondChance => true
  | .flipThree => true
  | _ => false

/-- Values of the NumberCards of a hand, in hand order
(`[card for card in hand if isinstance(card, NumberCard)]`, seen through
value-based equality). -/
def numberValues (hand : List Card) : List Int :=
  hand.filterMap (fun c => match c with | .number v => some v | _ => none)

/-- Mutable per-player state of `Player.__init__` (`src/game/player.py`).
`hasCallbacks` models whether `set_callbacks` installed the `_print`/`_input`
callbacks (always done in `main`). -/
structure Player where
  id : Nat
  score : Int
  hand : List Card
  active : Bool
  secondChance : Bool
  hasCallbacks : Bool
deriving DecidableEq, Repr

/-- Embeds `Player.is_active`. -/
def is_active (p : Player) : Bool := p.active

/-- Embeds `Player.receive_card`: appends to the hand unconditionally. -/
def receive_card (p : Player) (c : Card) : Player :=
  { p with hand := p.hand ++ [c] }

/-- Embeds `Player.stay`: marks the player inactive. -/
def stay (p : Player) : Player := { p with active := false }

/-- Embeds `Player.add_second_chance`. -/
def add_second_chance (p : Player) : Player := { p with secondChance := true }

/-- Embeds `Player.use_second_chance` as in `src/game/player.py` (lines 230-232):
clears the flag only, the hand is left untouched. -/
def use_second_chance (p : Player) : Player := { p with secondChance := false }

/-- Embeds `Player.has_second_chance`. -/
def has_second_chance (p : Player) : Bool := p.secondChance

/-- Embeds `Player.is_busted`: `not self._second_chance and
(len(number_cards) != len(set(number_cards)))`; the Python set collapses
NumberCards by value, which `List.dedup` mirrors. -/
def is_busted (p : Player) : Bool :=
  !p.secondChance && ((numberValues p.hand).dedup.length != (numberValues p.hand).length)

/-- Embeds `Player.has_seven`: the set of NumberCards in hand has size 7. -/
def has_seven (p : Player) : Bool :=
  (numberValues p.hand).dedup.length == 7

/-- The single pass of `Player.update_score`'s `for card in self._hand` loop:
accumulates `(total_multiplier, total_addition)` starting from `(1, 0)`;
non-addition ScoreModifierCards multiply into the first component, NumberCards
and addition ScoreModifierCards add into the second, non-AddableCards are
skipped. -/
def scoreStep (acc : Int × Int) (c : Card) : Int × Int :=
  match c with
  | .number v => (acc.1, acc.2 + v)
  | .modifier v isAdd => if isAdd then (acc.1, acc.2 + v) else (acc.1 * v, acc.2)
  | _ => acc

/-- Embeds `Player.update_score`'s loop over the hand, starting from
`total_multiplier = 1`, `total_addition = 0`. -/
def scoreTotals (hand : List Card) : Int × Int :=
  hand.foldl scoreStep (1, 0)

/-- Embeds `Player.update_score`: no-op when busted, otherwise
`score = score * total_multiplier + total_addition`. -/
def update_score (p : Player) : Player :=
  if is_busted p then p
  else { p with score := p.score * (scoreTotals p.hand).1 + (scoreTotals p.hand).2 }

/-- Embeds `Player.reset`: reactivates the player, clears the second chance, empties
the hand and returns the discarded hand to the caller. -/
def reset (p : Player) : Player × List Card :=
  ({ p with active := true, secondChance := false, hand := [] }, p.hand)

/-- Embeds `Player.add_bonus`: 15 extra points when `has_seven()` and not busted. -/
def add_bonus (p : Player) : Player :=
  if has_seven p && !is_busted p then { p with score := p.score + 15 } else p

/-- Embeds `Player.won_game`: score at least 200. -/
def won_game (p : Player) : Bool := p.score ≥ 200

namespace FunGame

/-- Embeds `Player.use_second_chance` of the consolidated build
`src/dist/fun_game.py` (lines 598-603): clears the flag, keeps the
non-NumberCards (in order) and replaces the NumberCards by
`list({...})`, one card per distinct value. -/
def use_second_chance (p : Player) : Player :=
  { p with
    secondChance := false,
    hand := p.hand.filter (fun c => ! c.isNumber)
            ++ (numberValues p.hand).dedup.map Card.number }

end FunGame

/-- The fixed deck of `Deck.__init__` (`src/game/deck.py`): one NumberCard for
each value 0..12, then one FreezeCard, one SecondChanceCard and one
FlipThreeCard — 16 cards in total. -/
def initialDeck : List Card :=
  ((List.range 13).map (fun n => Card.number (n : Int)))
    ++ [Card.freeze, Card.secondChance, Card.flipThree]

/-- Embeds `Deck.take_card`: `self._cards.pop()` removes the last element, or yields
`None` on an empty deck. -/
def take_card (cards : List Card) : Option Card × List Card :=
  match cards.getLast? with
  | none => (none, cards)
  | some c => (some c, cards.dropLast)

/-- Embeds `Deck.return_cards`: appends the given cards to the deck (the Python
argument list is then cleared in place). -/
def return_cards (cards given : List Card) : List Card := cards ++ given

/-- Shared game state: the player objects (aliased by every `_players` list),
the deck's card list and `main`'s `discard_pile`. -/
structure GameState where
  players : List Player
  deck : List Card
  discard : List Card
deriving DecidableEq, Repr

/-- Lookup of the player object with a given id. -/
def getPlayer (gs : GameState) (pid : Nat) : Option Player :=
  gs.players.find? (fun p => p.id == pid)

/-- In-place mutation of the player object with the given id, as seen through
the shared references. -/
def updatePlayer (gs : GameState) (pid : Nat) (f : Player → Player) : GameState :=
  { gs with players := gs.players.map (fun p => if p.id == pid then f p else p) }

/-- Total number of cards in circulation:
`deck.size + discard.size + sum of hand sizes` (the invariant of spec section 3). -/
def totalCards (gs : GameState) : Nat :=
  gs.deck.length + gs.discard.length + (gs.players.map (fun p => p.hand.length)).sum

/-- The target-selection loop of `Player.take_action`
(`src/game/player.py` lines 115-137): each scripted response is modelled by
its parse (`isdigit()` plus `int()`: `none` for a non-numeric answer, the
parsed id otherwise). Responses are consumed until one is numeric, names an
existing player (search over the acting player's `_players`, which `main`
fills with every player), and that player is active; non-numeric, unknown and
inactive answers are re-prompted. The result `none` models the Python
`while True` loop blocking forever once the scripted responses run out. -/
def chooseTarget (players : List Player) : List (Option Nat) → Option (Nat × List (Option Nat))
  | [] => none
  | r :: rs =>
    match r with
    | none => chooseTarget players rs
    | some tid =>
      match players.find? (fun p => p.id == tid) with
      | none => chooseTarget players rs
      | some t => if t.active then some (tid, rs) else chooseTarget players rs

/-- The `for _ in range(3)` draw loop of `FlipThreeCard.action`
(`src/game/card.py` lines 215-242): pop a card; stop on an empty deck;
stack action cards; give other cards to the target; on a bust consume a held
second chance (`use_second_chance` of `src/game/player.py`, which does not
collapse duplicates) or stop — without any `stay()` call in this revision;
stop when the target reaches seven distinct values. Returns the state after
the draws and the local `action_card_stack` in draw order. -/
def flipThreeDraws : Nat → Nat → GameState → List Card → GameState × List Card
  | 0, _, gs, stack => (gs, stack)
  | k + 1, tid, gs, stack =>
    match take_card gs.deck with
    | (none, _) => (gs, stack)
    | (some c, deck2) =>
      let gs1 : GameState := { gs with deck := deck2 }
      if c.isAction then
        flipThreeDraws k tid gs1 (stack ++ [c])
      else
        let gs2 := updatePlayer gs1 tid (fun p => receive_card p c)
        match getPlayer gs2 tid with
        | none => flipThreeDraws k tid gs2 stack
        | some t =>
          if is_busted t then
            if has_second_chance t then
              let gs3 := updatePlayer gs2 tid use_second_chance
              match getPlayer gs3 tid with
              | none => flipThreeDraws k tid gs3 stack
              | some t2 =>
                if has_seven t2 then (gs3, stack) else flipThreeDraws k tid gs3 stack
            else (gs2, stack)
          else if has_seven t then (gs2, stack)
          else flipThreeDraws k tid gs2 stack

/-- Embeds `Player.take_action` (`src/game/player.py` lines 106-139), parametrised by
the action interpreter `act` used on the chosen target: returns unchanged
when the actor has no callbacks; otherwise prompts the actor for a target
(over the actor's `_players`, i.e. every player) and runs the card's action
on the chosen target. -/
def takeActionWith (act : Card → Nat → GameState → List (Option Nat) → GameState × List (Option Nat))
    (actorId : Nat) (c : Card) (gs : GameState) (rs : List (Option Nat)) :
    GameState × List (Option Nat) :=
  match getPlayer gs actorId with
  | none => (gs, rs)
  | some actor =>
    if actor.hasCallbacks then
      match chooseTarget gs.players rs with
      | none => (gs, rs)
      | some pr => act c pr.1 gs pr.2
    else (gs, rs)

/-- The post-loop `while action_card_stack` resolution of
`FlipThreeCard.action`: the stack is passed already reversed, so the head is
the last-drawn card; each card is handed to the original target's
`take_action`, interpreted by `act`. -/
def resolveStackWith (act : Card → Nat → GameState → List (Option Nat) → GameState × List (Option Nat))
    (tid : Nat) : List Card → GameState → List (Option Nat) → GameState × List (Option Nat)
  | [], gs, rs => (gs, rs)
  | c :: rest, gs, rs =>
    let step := takeActionWith act tid c gs rs
    resolveStackWith act tid rest step.1 step.2

/-- The non-recursive action dispatch: `FreezeCard.action` calls `stay()` on
the target and `SecondChanceCard.action` calls `add_second_chance()`;
non-action cards have no `action` method. -/
def actionNoFlip : Card → Nat → GameState → List (Option Nat) → GameState × List (Option Nat) :=
  fun c tid gs rs =>
    match c with
    | .freeze => (updatePlayer gs tid stay, rs)
    | .secondChance => (updatePlayer gs tid add_second_chance, rs)
    | _ => (gs, rs)

/-- Embeds the `ActionCard.action` dispatch: Freeze and SecondChance act directly, and
`FlipThreeCard.action` runs the three-draw loop and then resolves the stacked
action cards in last-drawn-first order (`while action_card_stack: ... pop()`),
each through `targeted_player.take_action`. The fuel bounds the nesting depth
of FlipThree resolutions (Python's recursion is unbounded, but every nested
FlipThree was itself drawn from the strictly shrinking deck, so a fuel of
one plus the deck size always suffices). -/
def applyAction : Nat → Card → Nat → GameState → List (Option Nat) → GameState × List (Option Nat)
  | 0 => actionNoFlip
  | Nat.succ f => fun c tid gs rs =>
    match c with
    | .flipThree =>
      let dr := flipThreeDraws 3 tid gs []
      resolveStackWith (applyAction f) tid dr.2.reverse dr.1 rs
    | c2 => actionNoFlip c2 tid gs rs

/-- Embeds `Player.take_action` proper, with nesting depth `fuel` available for the
card's action. -/
def takeAction (fuel : Nat) (actorId : Nat) (c : Card) (gs : GameState) (rs : List (Option Nat)) :
    GameState × List (Option Nat) :=
  takeActionWith (applyAction fuel) actorId c gs rs

/-- The stack-resolution loop of `FlipThreeCard.action` with nesting depth
`fuel` for each stacked card's own action. -/
def runStack (fuel : Nat) (tid : Nat) (stackRev : List Card) (gs : GameState)
    (rs : List (Option Nat)) : GameState × List (Option Nat) :=
  resolveStackWith (applyAction fuel) tid stackRev gs rs

/-- Embeds `Player.hit` (`src/game/player.py` lines 76-104): returns `False` when the
player is inactive or has no callbacks; draws a card (`False` when the deck is
empty), appends it to the hand, and immediately runs `take_action` when it is
an ActionCard; returns the drawn card. -/
def hit (fuel : Nat) (pid : Nat) (gs : GameState) (rs : List (Option Nat)) :
    Option Card × GameState × List (Option Nat) :=
  match getPlayer gs pid with
  | none => (none, gs, rs)
  | some p =>
    if !p.active || !p.hasCallbacks then (none, gs, rs)
    else
      match take_card gs.deck with
      | (none, _) => (none, gs, rs)
      | (some c, deck2) =>
        let gs1 := updatePlayer { gs with deck := deck2 } pid (fun q => receive_card q c)
        if c.isAction then
          let res := takeAction fuel pid c gs1 rs
          (some c, res.1, res.2)
        else (some c, gs1, rs)

/-- Embeds `checkRoundEnd` (`src/main.py` lines 22-36): walk the players in id order
(`for i in range(1, len(playerdict) + 1)`); an active player yields `False`
immediately; an inactive player with seven distinct values yields `True`;
exhausting the players yields `True`. -/
def checkRoundEnd : List Player → Bool
  | [] => true
  | p :: rest =>
    if is_active p then false
    else if has_seven p then true
    else checkRoundEnd rest

/-- The round-end prediction in the words of the spec and of
`checkRoundEnd`'s own docstring: the round has ended when every player is
inactive, or when any player has seven unique number cards in hand. -/
def specRoundEnd (players : List Player) : Bool :=
  players.all (fun p => !p.active) || players.any has_seven

/-- The per-player round-end sequence of `main` (`src/main.py` lines 189-197):
`update_score()`, then `reset()` — whose returned hand `main` discards — then
`add_bonus()`. -/
def roundEndPlayer (p : Player) : Player :=
  add_bonus (reset (update_score p)).1

/-- The `for playerid in playerids` round-end pass of `main`: every player is
processed by `roundEndPlayer`; the deck and the discard pile are untouched
(the hands returned by `reset()` go nowhere). -/
def roundEndPass (gs : GameState) : GameState :=
  { gs with players := gs.players.map roundEndPlayer }

/-- Stable descending insertion by score: an earlier element settles in front
of every later element of equal score, exactly the order produced by Python's
stable `sorted`. -/
def insertDesc (x : Player) : List Player → List Player
  | [] => [x]
  | q :: rest => if q.score ≤ x.score then x :: q :: rest else q :: insertDesc x rest

/-- Embeds `sorted(playerids.values(), key=lambda p: p.get_score(), reverse=True)`:
a stable descending sort on the score (any stable sort computes the same
list, so insertion sort renders Python's timsort faithfully). -/
def rankings (players : List Player) : List Player :=
  players.foldr insertDesc []

/-- Outcome reported by the endgame block of `main` (`src/main.py`
lines 212-231). -/
inductive Outcome
  | noWinner
  | single (pid : Nat) (score : Int)
  | joint (pids : List Nat) (score : Int)
deriving DecidableEq, Repr

/-- The endgame report of `main`: no winner when the loop ended without the
`winner` flag; otherwise the guard `rankings[0] != rankings[1]` — Python
object inequality of two distinct `Player` instances, here rendered as id
inequality since `main` gives every instance a distinct id — selects the
single-winner branch, and only its failure reports a joint win of all
top-scored players. -/
def endgameReport (winner : Bool) (players : List Player) : Outcome :=
  let rk := rankings players
  if !winner then .noWinner
  else
    match rk with
    | r0 :: r1 :: _ =>
      if r0.id ≠ r1.id then .single r0.id r0.score
      else .joint ((rk.filter (fun p => p.score == r0.score)).map (fun p => p.id)) r0.score
    | [r0] => .single r0.id r0.score
    | [] => .noWinner

/-- Multiplier in the words of the spec: product of the values of all
non-addition ScoreModifierCards in hand (1 if none). -/
def multiplierSpec (hand : List Card) : Int :=
  (hand.filterMap (fun c => match c with
    | .modifier v false => some v
    | _ => none)).prod

/-- Addition in the words of the spec: sum of the values of all NumberCards
and all addition ScoreModifierCards in hand. -/
def additionSpec (hand : List Card) : Int :=
  (numberValues hand).sum
    + (hand.filterMap (fun c => match c with
        | .modifier v true => some v
        | _ => none)).sum

/-- Shorthand for a player record with callbacks installed. -/
def mkP (i : Nat) (sc : Int) (h : List Card) (a s : Bool) : Player :=
  ⟨i, sc, h, a, s, true⟩

/-- The hand of spec section 8 with a prior score of 10. -/
def examplePlayer : Player :=
  mkP 1 10 [Card.number 5, Card.number 3, Card.modifier 2 false, Card.modifier 4 true] true false

/-- A flip-seven player: seven distinct NumberCards, active, no second chance. -/
def sevenPlayer : Player :=
  mkP 1 0 [Card.number 1, Card.number 2, Card.number 3, Card.number 4,
           Card.number 5, Card.number 6, Card.number 7] true false

/-- An inactive second player with an empty hand. -/
def idlePlayer : Player := mkP 2 0 [] false false

/-- Three active empty-handed players and a deck whose pops are
Freeze, NumberCard(3), NumberCard(1). -/
def flipThreeState : GameState :=
  ⟨[mkP 1 0 [] true false, mkP 2 0 [] true false, mkP 3 0 [] true false],
   [Card.number 1, Card.number 3, Card.freeze], []⟩

/-- The FlipThree scenario of spec section 8: pops are NumberCard(2),
FreezeCard, NumberCard(2); three active empty-handed players. -/
def bustScenarioState : GameState :=
  ⟨[mkP 1 0 [] true false, mkP 2 0 [] true false, mkP 3 0 [] true false],
   [Card.number 2, Card.freeze, Card.number 2], []⟩

/-- A deck whose second pop busts the target: pops NumberCard(2),
NumberCard(2) with NumberCard(9) left below. -/
def earlyBustState : GameState :=
  ⟨[mkP 1 0 [] true false, mkP 2 0 [] true false],
   [Card.number 9, Card.number 2, Card.number 2], []⟩

/-- Target 2 already holds six distinct values; the first pop is its seventh,
with NumberCard(9) left below. -/
def earlySevenState : GameState :=
  ⟨[mkP 1 0 [] true false,
    mkP 2 0 [Card.number 1, Card.number 2, Card.number 3, Card.number 4,
             Card.number 5, Card.number 6] true false],
   [Card.number 9, Card.number 7], []⟩

/-- Two players tied at the top score and a third below. -/
def tieP1 : Player := mkP 1 50 [] true false
/-- Second player of the tie. -/
def tieP2 : Player := mkP 2 50 [] true false
/-- The player below the tie. -/
def tieP3 : Player := mkP 3 10 [] true false

/-- Player 1 holds one card at round end; 15 cards remain in the deck. -/
def roundEndState : GameState :=
  ⟨[mkP 1 0 [Card.number 5] true false, mkP 2 0 [] true false, mkP 3 0 [] true false],
   (List.range 15).map (fun k => Card.number (k : Int)), []⟩

/-- Two players; the deck holds exactly one FreezeCard, so a FlipThree stacks
it and the deck then runs out. -/
def leakState : GameState :=
  ⟨[mkP 1 0 [] true false, mkP 2 0 [] true false], [Card.freeze], []⟩

/-- A player busted on two NumberCard(2)s without a second chance. -/
def bustP : Player := mkP 1 0 [Card.number 2, Card.number 2] true false

/-- A single active player, used to instantiate universally quantified
theorems. -/
def soloPlayer : Player := mkP 1 0 [] true false

/-- A state holding one inactive player and a one-card deck. -/
def inactiveHitState : GameState :=
  ⟨[mkP 1 0 [] false false], [Card.number 4], []⟩

theorem foldl_scoreStep (hand : List Card) (m a : Int) :
    hand.foldl scoreStep (m, a) = (m * multiplierSpec hand, a + additionSpec hand) := by
  induction hand generalizing m a with
  | nil => simp [multiplierSpec, additionSpec, numberValues]
  | cons c rest ih =>
    cases c with
    | number v =>
      simp only [List.foldl_cons, scoreStep, ih, multiplierSpec, additionSpec, numberValues,
        List.filterMap_cons, List.sum_cons, List.prod_cons, Prod.mk.injEq]
      constructor <;> ring
    | modifier v isAdd =>
      cases isAdd <;>
        simp only [List.foldl_cons, scoreStep, if_true, if_false, Bool.false_eq_true,
          ite_true, ite_false, ih, multiplierSpec, additionSpec, numberValues,
          List.filterMap_cons, List.sum_cons, List.prod_cons, Prod.mk.injEq] <;>
        constructor <;> ring
    | freeze =>
      simp [List.foldl_cons, scoreStep, ih, multiplierSpec, additionSpec, numberValues]
    | secondChance =>
      simp [List.foldl_cons, scoreStep, ih, multiplierSpec, additionSpec, numberValues]
    | flipThree =>
      simp [List.foldl_cons, scoreStep, ih, multiplierSpec, additionSpec, numberValues]

theorem scoreTotals_eq (hand : List Card) :
    scoreTotals hand = (multiplierSpec hand, additionSpec hand) := by
  simpa using foldl_scoreStep hand 1 0

/-- C5: `update_score` keeps the score of a busted player and otherwise sets
it to `old_score * (product of non-addition modifier values) + (sum of
NumberCard values and addition modifier values)`; the hand
NumberCard(5), NumberCard(3), ScoreModifierCard(2, ×), ScoreModifierCard(4, +)
over a prior score of 10 yields 32. -/
theorem c5_update_score_formula :
    (∀ p : Player, update_score p =
      if is_busted p then p
      else { p with score := p.score * multiplierSpec p.hand + additionSpec p.hand })
    ∧ update_score examplePlayer = { examplePlayer with score := 32 } := by
  refine ⟨fun p => ?_, by decide⟩
  simp [update_score, scoreTotals_eq]

/-- C1: the round-end sequence of `main` is `update_score()`, `reset()`,
`add_bonus()` in that order, so `add_bonus` always sees the freshly emptied
hand, `has_seven()` is false there, and the 15-point bonus is never awarded:
the round-end pass never changes the score beyond `update_score`, and the
concrete flip-seven player ends at 28 instead of the claimed 28 + 15 = 43. -/
theorem c1_round_end_bonus_never_awarded :
    (∀ p : Player, (roundEndPlayer p).score = (update_score p).score)
    ∧ has_seven sevenPlayer = true
    ∧ is_busted sevenPlayer = false
    ∧ (roundEndPlayer sevenPlayer).score = 28
    ∧ (update_score sevenPlayer).score + 15 = 43 := by
  refine ⟨fun p => ?_, by decide, by decide, by decide, by decide⟩
  simp [roundEndPlayer, add_bonus, has_seven, reset, numberValues]

/-- C2: `checkRoundEnd` returns `False` as soon as it meets an active player,
before ever looking at that player's (or any later player's) seven; on a
state whose first player is active and holds seven distinct NumberCards the
function answers `false` while the documented round-end condition
(`specRoundEnd`, any player with seven unique cards) answers `true`. -/
theorem c2_checkRoundEnd_misses_active_seven :
    checkRoundEnd [sevenPlayer, idlePlayer] = false
    ∧ is_active sevenPlayer = true
    ∧ has_seven sevenPlayer = true
    ∧ specRoundEnd [sevenPlayer, idlePlayer] = true := by decide

theorem dedup_length_eq_iff (l : List Int) : l.dedup.length = l.length ↔ l.Nodup := by
  constructor
  · intro h
    have he := (List.dedup_sublist l).eq_of_length h
    rw [← he]
    exact l.nodup_dedup
  · intro h
    rw [List.dedup_eq_self.mpr h]

theorem numberValues_append (l1 l2 : List Card) :
    numberValues (l1 ++ l2) = numberValues l1 ++ numberValues l2 :=
  List.filterMap_append l1 l2 _

theorem numberValues_filter_nonNumber (l : List Card) :
    numberValues (l.filter (fun c => ! c.isNumber)) = [] := by
  rw [numberValues, List.filterMap_eq_nil_iff]
  intro c hc
  have hq := List.of_mem_filter hc
  cases c <;> simp_all [Card.isNumber]

theorem numberValues_map_number (l : List Int) :
    numberValues (l.map Card.number) = l := by
  rw [numberValues, List.filterMap_map]
  show l.filterMap some = l
  exact List.filterMap_some l

theorem numberValues_fun_use (p : Player) :
    numberValues (FunGame.use_second_chance p).hand = (numberValues p.hand).dedup := by
  show numberValues (p.hand.filter (fun c => ! c.isNumber)
      ++ (numberValues p.hand).dedup.map Card.number) = _
  rw [numberValues_append, numberValues_filter_nonNumber, numberValues_map_number,
    List.nil_append]

theorem toFinset_dedup_int (l : List Int) : l.dedup.toFinset = l.toFinset := by
  ext a
  simp [List.mem_toFinset, List.mem_dedup]

/-- C4: `is_busted` holds exactly when the NumberCard values repeat and no
second chance is held; `add_second_chance` suppresses the bust without
touching the hand; and the consolidated build's `use_second_chance`
(`src/dist/fun_game.py`) clears the flag, collapses the NumberCards to one
card per distinct value and keeps the non-NumberCards. -/
theorem c4_bust_and_second_chance :
    (∀ p : Player,
      is_busted p = true ↔ ¬ (numberValues p.hand).Nodup ∧ p.secondChance = false)
    ∧ (∀ p : Player,
        is_busted (add_second_chance p) = false ∧ (add_second_chance p).hand = p.hand)
    ∧ (∀ p : Player,
        (FunGame.use_second_chance p).secondChance = false
        ∧ (numberValues (FunGame.use_second_chance p).hand).Nodup
        ∧ (numberValues (FunGame.use_second_chance p).hand).toFinset
            = (numberValues p.hand).toFinset
        ∧ (FunGame.use_second_chance p).hand.filter (fun c => ! c.isNumber)
            = p.hand.filter (fun c => ! c.isNumber)) := by
  refine ⟨fun p => ?_, fun p => ⟨?_, rfl⟩, fun p => ⟨rfl, ?_, ?_, ?_⟩⟩
  · rw [is_busted]
    simp only [Bool.and_eq_true, Bool.not_eq_true', bne_iff_ne, ne_eq]
    rw [dedup_length_eq_iff]
    tauto
  · show (!(true : Bool) && _) = false
    rfl
  · rw [numberValues_fun_use]
    exact (numberValues p.hand).nodup_dedup
  · rw [numberValues_fun_use]
    exact toFinset_dedup_int _
  · show (p.hand.filter (fun c => ! c.isNumber)
        ++ (numberValues p.hand).dedup.map Card.number).filter (fun c => ! c.isNumber)
      = p.hand.filter (fun c => ! c.isNumber)
    rw [List.filter_append]
    have h1 : (p.hand.filter (fun c => ! c.isNumber)).filter (fun c => ! c.isNumber)
        = p.hand.filter (fun c => ! c.isNumber) := by
      simp [List.filter_filter]
    have h2 : ((numberValues p.hand).dedup.map Card.number).filter
        (fun c => ! c.isNumber) = [] := by
      rw [List.filter_eq_nil_iff]
      intro c hc
      rcases List.mem_map.mp hc with ⟨v, _, rfl⟩
      simp [Card.isNumber]
    rw [h1, h2, List.append_nil]

/-- C4 witness: the three parts of `c4_bust_and_second_chance` evaluated on a
player holding two NumberCard(2)s. -/
theorem c4_bust_and_second_chance_witness :
    (is_busted bustP = true)
    ∧ is_busted (add_second_chance bustP) = false
    ∧ (numberValues (FunGame.use_second_chance bustP).hand).Nodup :=
  ⟨(c4_bust_and_second_chance.1 bustP).mpr (by decide),
   (c4_bust_and_second_chance.2.1 bustP).1,
   (c4_bust_and_second_chance.2.2 bustP).2.1⟩

theorem take_card_length (l : List Card) (c : Card) (l2 : List Card)
    (h : take_card l = (some c, l2)) : l.length = l2.length + 1 := by
  rw [take_card] at h
  rcases hg : l.getLast? with _ | c2
  · rw [hg] at h
    cases h
  · rw [hg] at h
    cases h
    have hne : l ≠ [] := by
      intro he
      subst he
      cases hg
    have hpos : 0 < l.length := List.length_pos.mpr hne
    rw [List.length_dropLast]
    omega

theorem updatePlayer_idActive (gs : GameState) (tid : Nat) (f : Player → Player)
    (hf : ∀ p, (f p).id = p.id ∧ (f p).active = p.active) :
    (updatePlayer gs tid f).players.map (fun p => (p.id, p.active))
      = gs.players.map (fun p => (p.id, p.active)) := by
  simp only [updatePlayer, List.map_map]
  apply List.map_congr_left
  intro p _
  by_cases h : (p.id == tid) = true <;> simp [h, Function.comp, (hf p).1, (hf p).2]

theorem idActive_receive (gs : GameState) (tid : Nat) (c : Card) :
    (updatePlayer gs tid (fun p => receive_card p c)).players.map (fun p => (p.id, p.active))
      = gs.players.map (fun p => (p.id, p.active)) :=
  updatePlayer_idActive gs tid _ (fun _ => ⟨rfl, rfl⟩)

theorem idActive_useSecond (gs : GameState) (tid : Nat) :
    (updatePlayer gs tid use_second_chance).players.map (fun p => (p.id, p.active))
      = gs.players.map (fun p => (p.id, p.active)) :=
  updatePlayer_idActive gs tid _ (fun _ => ⟨rfl, rfl⟩)

theorem chooseTarget_active (players : List Player) :
    ∀ (rs rs2 : List (Option Nat)) (tid : Nat),
      chooseTarget players rs = some (tid, rs2) →
      ∃ p, players.find? (fun q => q.id == tid) = some p ∧ p.active = true := by
  intro rs
  induction rs with
  | nil =>
    intro rs2 tid h
    cases h
  | cons r rest ih =>
    intro rs2 tid h
    rcases r with _ | rid
    · exact ih rs2 tid h
    · have h2 : (match players.find? (fun p => p.id == rid) with
          | none => chooseTarget players rest
          | some t => if t.active then some (rid, rest) else chooseTarget players rest)
          = some (tid, rs2) := h
      rcases hf : players.find? (fun p => p.id == rid) with _ | t
      · rw [hf] at h2
        exact ih rs2 tid h2
      · rw [hf] at h2
        have h3 : (if t.active then some (rid, rest) else chooseTarget players rest)
            = some (tid, rs2) := h2
        rcases ha : t.active with _ | _
        · rw [ha, if_neg Bool.false_ne_true] at h3
          exact ih rs2 tid h3
        · rw [ha, if_pos rfl] at h3
          cases h3
          exact ⟨t, hf, ha⟩

theorem flipThreeDraws_idActive :
    ∀ (k tid : Nat) (gs : GameState) (acc : List Card),
      (flipThreeDraws k tid gs acc).1.players.map (fun p => (p.id, p.active))
        = gs.players.map (fun p => (p.id, p.active)) := by
  intro k
  induction k with
  | zero =>
    intro tid gs acc
    rfl
  | succ m ih =>
    intro tid gs acc
    rcases htc : take_card gs.deck with ⟨oc, deck2⟩
    rw [flipThreeDraws, htc]
    rcases oc with _ | c2
    · rfl
    · dsimp only
      repeat' split
      all_goals simp only [ih, idActive_receive, idActive_useSecond]

theorem flipThreeDraws_deck_le :
    ∀ (k tid : Nat) (gs : GameState) (acc : List Card),
      gs.deck.length ≤ (flipThreeDraws k tid gs acc).1.deck.length + k := by
  intro k
  induction k with
  | zero =>
    intro tid gs acc
    exact Nat.le_refl _
  | succ m ih =>
    intro tid gs acc
    rcases htc : take_card gs.deck with ⟨oc, deck2⟩
    rw [flipThreeDraws, htc]
    rcases oc with _ | c2
    · exact Nat.le_add_right _ _
    · have h1 : gs.deck.length = deck2.length + 1 := take_card_length gs.deck c2 deck2 htc
      have hA := ih tid (GameState.mk gs.players deck2 gs.discard) (acc ++ [c2])
      have hB := ih tid (updatePlayer (GameState.mk gs.players deck2 gs.discard) tid
        (fun p => receive_card p c2)) acc
      have hC := ih tid (updatePlayer (updatePlayer (GameState.mk gs.players deck2
        gs.discard) tid (fun p => receive_card p c2)) tid use_second_chance) acc
      have dA : (GameState.mk gs.players deck2 gs.discard).deck.length = deck2.length := rfl
      have dB : (updatePlayer (GameState.mk gs.players deck2 gs.discard) tid
          (fun p => receive_card p c2)).deck.length = deck2.length := rfl
      have dC : (updatePlayer (updatePlayer (GameState.mk gs.players deck2 gs.discard) tid
          (fun p => receive_card p c2)) tid use_second_chance).deck.length
          = deck2.length := rfl
      rw [dA] at hA
      rw [dB] at hB
      rw [dC] at hC
      dsimp only
      repeat' split
      all_goals try dsimp only
      all_goals omega

theorem flipThreeDraws_stack :
    ∀ (k tid : Nat) (gs : GameState) (acc : List Card),
      ∃ l, (flipThreeDraws k tid gs acc).2 = acc ++ l ∧ ∀ c ∈ l, c.isAction = true := by
  intro k
  induction k with
  | zero =>
    intro tid gs acc
    exact ⟨[], (List.append_nil acc).symm, by intro c hc; cases hc⟩
  | succ m ih =>
    intro tid gs acc
    rcases htc : take_card gs.deck with ⟨oc, deck2⟩
    rw [flipThreeDraws, htc]
    rcases oc with _ | c2
    · exact ⟨[], (List.append_nil acc).symm, by intro c hc; cases hc⟩
    · dsimp only
      split
      next hact =>
        obtain ⟨l, hl, hall⟩ := ih tid ⟨gs.players, deck2, gs.discard⟩ (acc ++ [c2])
        refine ⟨c2 :: l, ?_, ?_⟩
        · rw [hl]
          simp
        · intro c hc
          rcases List.mem_cons.mp hc with rfl | hc2
          · exact hact
          · exact hall c hc2
      next hact =>
        repeat' split
        all_goals first
          | exact ih _ _ _
          | exact ⟨[], (List.append_nil acc).symm, by intro c hc; cases hc⟩

theorem roundEndPlayer_hand (p : Player) : (roundEndPlayer p).hand = [] := by
  unfold roundEndPlayer add_bonus
  split <;> rfl

/-- C3: cards do leak from circulation. The deck is created with 16 cards, but
`main` drops the hand returned by `reset()` on the floor (nothing is ever
appended to `discard_pile`), so every round-end pass shrinks
`deck + discard + hands` by the total hand size; and `FlipThreeCard.action`
never places stacked action cards into any hand or pile, so resolving one
loses that card too (concretely 16 → 15 at a round end and 1 → 0 for a
FlipThree that stacks a Freeze). -/
theorem c3_card_conservation_violated :
    initialDeck.length = 16
    ∧ (∀ gs : GameState,
        totalCards (roundEndPass gs) + (gs.players.map (fun p => p.hand.length)).sum
          = totalCards gs)
    ∧ totalCards roundEndState = 16
    ∧ totalCards (roundEndPass roundEndState) = 15
    ∧ totalCards leakState = 1
    ∧ totalCards (applyAction 1 Card.flipThree 2 leakState [some 1]).1 = 0 := by
  refine ⟨by decide, fun gs => ?_, by decide, by decide, by decide, by decide⟩
  have h : ((gs.players.map roundEndPlayer).map (fun p => p.hand.length)).sum = 0 := by
    apply List.sum_eq_zero
    intro x hx
    rcases List.mem_map.mp hx with ⟨q, hq, rfl⟩
    rcases List.mem_map.mp hq with ⟨p, _, rfl⟩
    rw [roundEndPlayer_hand]
    rfl
  simp only [totalCards, roundEndPass, h]
  omega

/-- C8: `endgameReport` with the `winner` flag down reports no winner whatever
the scores; but a tie at the top is misreported: `rankings[0] != rankings[1]`
compares two distinct `Player` objects (Python identity, never equal), so the
joint-win branch is unreachable and two players tied at 50 yield a single
winner, the first of them in the stable descending order. -/
theorem c8_tie_reported_as_single_win :
    (∀ ps : List Player, endgameReport false ps = Outcome.noWinner)
    ∧ tieP1.score = tieP2.score
    ∧ rankings [tieP1, tieP2, tieP3] = [tieP1, tieP2, tieP3]
    ∧ endgameReport true [tieP1, tieP2, tieP3] = Outcome.single 1 50 := by
  exact ⟨fun ps => rfl, by decide, by decide, by decide⟩

/-- C10: `Player.hit` on an inactive player returns `False` before touching
the deck: the hand, the deck — the whole game state — and the pending
responses are unchanged, for every fuel, player, state and response script. -/
theorem c10_hit_inactive_noop (fuel pid : Nat) (gs : GameState) (rs : List (Option Nat))
    (p : Player) (hfind : getPlayer gs pid = some p) (hact : p.active = false) :
    hit fuel pid gs rs = (none, gs, rs) := by
  unfold hit
  rw [hfind]
  simp [hact]

/-- C10 witness: the inactive player 1 of `inactiveHitState` draws nothing. -/
theorem c10_hit_inactive_noop_witness :
    hit 3 1 inactiveHitState [] = (none, inactiveHitState, []) :=
  c10_hit_inactive_noop 3 1 inactiveHitState [] (mkP 1 0 [] false false)
    (by decide) (by decide)

/-- C6 counterexample: a FlipThree targeted at player 2 stacks the drawn
Freeze (the draws continue) — but the stacked card is then handed to player
2's `take_action`, whose prompt (scripted answer: 3) applies it to player 3,
not to the FlipThree's own target: afterwards player 3 is inactive while the
target, player 2, is untouched and still active. -/
theorem c6_stacked_card_retargeted :
    (flipThreeDraws 3 2 flipThreeState []).2 = [Card.freeze]
    ∧ (applyAction 2 Card.flipThree 2 flipThreeState [some 3]).1.players.map
        (fun p => (p.id, p.active))
      = [(1, true), (2, true), (3, false)] := by decide

/-- C6 amended: action cards drawn during the three-draw sequence are not
resolved immediately — they accumulate on the local stack in draw order and
are resolved after the loop in last-drawn-first order (`runStack` over the
reversed stack); each stacked card is resolved through the original target's
`take_action`, whose prompt accepts any player that exists and is active at
selection time — not necessarily the original target. -/
theorem c6_stack_resolution_amended :
    (∀ (f tid : Nat) (gs : GameState) (rs : List (Option Nat)),
      applyAction (f + 1) Card.flipThree tid gs rs
        = runStack f tid (flipThreeDraws 3 tid gs []).2.reverse
            (flipThreeDraws 3 tid gs []).1 rs)
    ∧ (∀ (k tid : Nat) (gs : GameState) (acc : List Card),
        ∃ l, (flipThreeDraws k tid gs acc).2 = acc ++ l ∧ ∀ c ∈ l, c.isAction = true)
    ∧ (∀ (players : List Player) (rs rs2 : List (Option Nat)) (tid : Nat),
        chooseTarget players rs = some (tid, rs2) →
        ∃ p, players.find? (fun q => q.id == tid) = some p ∧ p.active = true) := by
  exact ⟨fun f tid gs rs => rfl, flipThreeDraws_stack,
    fun players rs rs2 tid h => chooseTarget_active players rs rs2 tid h⟩

/-- C6 witness: the amended statement applied to the concrete FlipThree of
`flipThreeState` and to a concrete accepted prompt. -/
theorem c6_stack_resolution_amended_witness :
    (applyAction 1 Card.flipThree 2 flipThreeState [some 3]
        = runStack 0 2 (flipThreeDraws 3 2 flipThreeState []).2.reverse
            (flipThreeDraws 3 2 flipThreeState []).1 [some 3])
    ∧ ∃ p, [soloPlayer].find? (fun q => q.id == 1) = some p ∧ p.active = true :=
  ⟨c6_stack_resolution_amended.1 0 2 flipThreeState [some 3],
   c6_stack_resolution_amended.2.2 [soloPlayer] [some 1] [] 1 (by decide)⟩

/-- C7 counterexample: on the spec's own scenario (pops NumberCard(2),
FreezeCard, NumberCard(2) for an empty-handed target without a second
chance), the draw loop of `FlipThreeCard.action` in `src/game/card.py` stacks
the Freeze and halts on the bust — but never calls `stay()`: the target ends
the loop busted yet still active. -/
theorem c7_no_stay_on_bust :
    (flipThreeDraws 3 2 bustScenarioState []).2 = [Card.freeze]
    ∧ (getPlayer (flipThreeDraws 3 2 bustScenarioState []).1 2).map
        (fun p => (p.hand, p.active, is_busted p, has_second_chance p))
      = some ([Card.number 2, Card.number 2], true, true, false) := by decide

/-- C7 amended: the draw loop performs at most `k` draws (the deck shrinks by
at most `k`), exits immediately on an empty deck, and never changes any
player's `active` flag — on a bust without second chance it halts WITHOUT
calling `stay()`, so no stacked Freeze can find the target already inactive
(and the `take_action` prompt would reject an inactive player anyway, see the
targeting lemmas); early exit on a bust or on seven distinct values is
witnessed by the two concrete decks that keep NumberCard(9) undrawn. -/
theorem c7_flip_three_amended :
    (∀ (k tid : Nat) (ps : List Player) (d acc : List Card),
      flipThreeDraws k tid (GameState.mk ps [] d) acc = (GameState.mk ps [] d, acc))
    ∧ (∀ (k tid : Nat) (gs : GameState) (acc : List Card),
        gs.deck.length ≤ (flipThreeDraws k tid gs acc).1.deck.length + k)
    ∧ (∀ (k tid : Nat) (gs : GameState) (acc : List Card),
        (flipThreeDraws k tid gs acc).1.players.map (fun p => (p.id, p.active))
          = gs.players.map (fun p => (p.id, p.active)))
    ∧ (flipThreeDraws 3 2 earlyBustState []).1.deck = [Card.number 9]
    ∧ (getPlayer (flipThreeDraws 3 2 earlyBustState []).1 2).map
        (fun p => (is_busted p, p.active)) = some (true, true)
    ∧ (flipThreeDraws 3 2 earlySevenState []).1.deck = [Card.number 9]
    ∧ (getPlayer (flipThreeDraws 3 2 earlySevenState []).1 2).map has_seven
        = some true := by
  refine ⟨fun k tid ps d acc => ?_, flipThreeDraws_deck_le, flipThreeDraws_idActive,
    by decide, by decide, by decide, by decide⟩
  cases k <;> rfl

/-- C9 counterexample: the targeting loop accepts the acting player: active
player 1 resolves a Freeze through `take_action`, answers with their own id,
and the card is applied to player 1 — the player who drew it. -/
theorem c9_self_target_accepted :
    (takeAction 1 1 Card.freeze flipThreeState [some 1]).1.players.map
        (fun p => (p.id, p.active))
      = [(1, false), (2, true), (3, true)] := by decide

/-- C9 amended: the prompt loop of `take_action` re-prompts on every invalid
response — non-numeric, naming no player, or naming an inactive player — and
any accepted target exists and is active at selection time; but the search
runs over the full `_players` list `main` installs, which includes the acting
player, so an active self-target is accepted. -/
theorem c9_targeting_amended :
    (∀ (players : List Player) (rs : List (Option Nat)),
      chooseTarget players (none :: rs) = chooseTarget players rs)
    ∧ (∀ (players : List Player) (rs : List (Option Nat)) (tid : Nat),
        players.find? (fun q => q.id == tid) = none →
        chooseTarget players (some tid :: rs) = chooseTarget players rs)
    ∧ (∀ (players : List Player) (rs : List (Option Nat)) (tid : Nat) (p : Player),
        players.find? (fun q => q.id == tid) = some p → p.active = false →
        chooseTarget players (some tid :: rs) = chooseTarget players rs)
    ∧ (∀ (players : List Player) (rs rs2 : List (Option Nat)) (tid : Nat),
        chooseTarget players rs = some (tid, rs2) →
        ∃ p, players.find? (fun q => q.id == tid) = some p ∧ p.active = true) := by
  refine ⟨fun players rs => rfl, fun players rs tid h => ?_,
    fun players rs tid p h ha => ?_,
    fun players rs rs2 tid h => chooseTarget_active players rs rs2 tid h⟩
  · show (match players.find? (fun q => q.id == tid) with
      | none => chooseTarget players rs
      | some t => if t.active then some (tid, rs) else chooseTarget players rs)
      = chooseTarget players rs
    rw [h]
  · show (match players.find? (fun q => q.id == tid) with
      | none => chooseTarget players rs
      | some t => if t.active then some (tid, rs) else chooseTarget players rs)
      = chooseTarget players rs
    rw [h]
    show (if p.active then some (tid, rs) else chooseTarget players rs)
      = chooseTarget players rs
    rw [ha, if_neg Bool.false_ne_true]

/-- C9 witness: a response naming no player is skipped, and a concrete
accepted response names an active player. -/
theorem c9_targeting_amended_witness :
    chooseTarget [soloPlayer] [some 9, some 1] = chooseTarget [soloPlayer] [some 1]
    ∧ ∃ p, [soloPlayer].find? (fun q => q.id == 1) = some p ∧ p.active = true :=
  ⟨c9_targeting_amended.2.1 [soloPlayer] [some 1] 9 (by decide),
   c9_targeting_amended.2.2.2 [soloPlayer] [some 1] [] 1 (by decide)⟩
